import Mathlib

/-!
# Verification of the deno-server structured-concurrency core

Shallow embedding of the combinators of the repository and server lifecycle
logic, with theorems settling the claims of the specification against the
source.

Sources embedded here (file names refer to the repository):
* `withTimeout`, `withRetry`, `parallel` — unnamed higher-level API draft
  (part_002)
* `retry`, `withResource`/`useResource`, `withConcurrency`,
  `useTaskScheduler` — high-level API drafts (part_001, part_003)
* `createRequestTracker.waitForCompletion`, `createConfig`, `createServer`
  shutdown sequence — part_004 and `src/lib/server.ts`
* `serveStatic` — part_007 and `src/server/server.ts`
-/

/-- A JavaScript `Error` value, reduced to its message. -/
structure JsError where
  message : String
deriving DecidableEq, Repr

/-- The error produced by the rejected timer promise in `withTimeout`
(part_002 line 148). -/
def timeoutError (timeoutMs : Nat) : JsError :=
  ⟨"Operation timed out after " ++ toString timeoutMs ++ "ms"⟩

/-!
## Operations as timed results (for `withTimeout`, part_002)

In part_002, `yield* effect(desc, fn)` awaits the promise produced by
`fn()` (the same construct is used for the retry delay at line 127, which
is clearly awaited).  We therefore model an awaited asynchronous
computation as the pair of the time it takes to settle and the value or
error it settles with.
-/

/-- An asynchronous operation as observed by awaiting it: it settles after
`dur` milliseconds with `result`. -/
structure AsyncOp (α : Type) where
  dur : Nat
  result : Except JsError α
deriving Repr

instance {ε α : Type} [DecidableEq ε] [DecidableEq α] :
    DecidableEq (Except ε α) := fun a b =>
  match a, b with
  | .ok x, .ok y => decidable_of_iff (x = y) (by simp)
  | .error x, .error y => decidable_of_iff (x = y) (by simp)
  | .ok _, .error _ => isFalse (by simp)
  | .error _, .ok _ => isFalse (by simp)

instance {α : Type} [DecidableEq α] : DecidableEq (AsyncOp α) := fun a b =>
  decidable_of_iff (a.dur = b.dur ∧ a.result = b.result)
    (by cases a; cases b; simp)

/-- `race` between two already-started operations: the first to settle
wins and its result is produced (part_002 line 152 races the operation
against the timer value). -/
def raceOp {α : Type} (a b : AsyncOp α) : AsyncOp α :=
  if a.dur ≤ b.dur then a else b

/-- Embedding of `withTimeout` (part_002 lines 140-154).  The body first
awaits the create-timeout effect, a promise that is built with
setTimeout to reject after timeoutMs — a promise that only ever rejects, after
`timeoutMs` — and only then would race the operation against the awaited
value.  The `match` mirrors the sequencing: if the awaited effect throws,
the generator aborts there and the race on line 152 is never reached. -/
def withTimeout {α : Type} (operation : AsyncOp α) (timeoutMs : Nat) :
    AsyncOp α :=
  let timeoutEffect : AsyncOp α := ⟨timeoutMs, .error (timeoutError timeoutMs)⟩
  match timeoutEffect.result with
  | .error e => ⟨timeoutEffect.dur, .error e⟩
  | .ok tp => raceOp operation ⟨0, .ok tp⟩

/-!
## `retry` (part_001 lines 80-97, part_003 lines 93-110)

The source loops `for (let i = 0; i < maxRetries; i++)`, returning the
first success; on every failure it records the error and, when `delay` is
truthy, sleeps — including after the failure of the final attempt.  After
the loop it throws `lastError || new Error("Retry failed")`.

The operation is modelled as a function from the attempt index to its
outcome; the embedding returns both the event trace (attempts and sleeps,
in order) and the final result.
-/

/-- Observable events of a `retry` run. -/
inductive RetryEv where
  | attempt (i : Nat)
  | delayed (ms : Nat)
deriving DecidableEq, Repr

/-- The loop body of `retry`: `i` is the index of the next attempt,
`remaining` the number of loop iterations left, `lastError` the error
recorded so far. -/
def retryLoop {α : Type} (operation : Nat → Except JsError α) (delay : Nat)
    (lastError : Option JsError) (i : Nat) :
    Nat → List RetryEv × Except JsError α
  | 0 => ([], .error (lastError.getD ⟨"Retry failed"⟩))
  | remaining + 1 =>
    match operation i with
    | .ok v => ([.attempt i], .ok v)
    | .error e =>
      let tail := retryLoop operation delay (some e) (i + 1) remaining
      if delay ≠ 0 then
        (.attempt i :: .delayed delay :: tail.1, tail.2)
      else
        (.attempt i :: tail.1, tail.2)

/-- Embedding of `retry(operation, maxRetries, delay)`. -/
def retry {α : Type} (operation : Nat → Except JsError α)
    (maxRetries : Nat) (delay : Nat) : List RetryEv × Except JsError α :=
  retryLoop operation delay none 0 maxRetries

/-- Number of invocations of the operation in a retry trace. -/
def countAttempts : List RetryEv → Nat
  | [] => 0
  | .attempt _ :: r => countAttempts r + 1
  | .delayed _ :: r => countAttempts r

/-- Number of sleeps in a retry trace. -/
def countDelays : List RetryEv → Nat
  | [] => 0
  | .attempt _ :: r => countDelays r
  | .delayed _ :: r => countDelays r + 1

/-!
## `withResource` (part_003 lines 64-80) / `useResource` (part_001 lines 52-68)

```
return resource(function* (provide) {
  const resource = yield* acquire();
  try {
    const result = yield* use(resource);
    yield* provide(result);
  } finally {
    if (cleanup) { yield* cleanup(resource); }
  }
});
```

The `use` body may return, throw, or be halted by external cancellation;
in all three cases Effection runs the `finally` block before the
`resource` operation settles in the frame of the caller.  The whole run is
modelled as the ordered list of lifecycle events plus the propagated
outcome.
-/

/-- Lifecycle events of one `withResource` run, in execution order. -/
inductive ResEv where
  | acquireOk
  | acquireFail
  | useRun
  | releaseRun
deriving DecidableEq, Repr

/-- Possible fates of the `use` body once the resource is acquired. -/
inductive UseOutcome (ρ : Type) where
  | success (r : ρ)
  | failure (e : JsError)
  | cancelled
deriving DecidableEq, Repr

/-- Outcome of the whole `withResource` call as seen by its caller. -/
inductive ResResult (ρ : Type) where
  | ok (r : ρ)
  | err (e : JsError)
  | cancelled
deriving DecidableEq, Repr

/-- Embedding of `withResource(acquire, use, cleanup?)`.  `acquire` either
yields a value or throws; `use` is applied to the acquired value; the
`finally` block runs `cleanup` (when provided) exactly once on every path
on which the acquisition succeeded, before the operation settles. -/
def withResource {α ρ : Type} (acquire : Except JsError α)
    (use : α → UseOutcome ρ) (cleanup : Option (α → Unit)) :
    List ResEv × ResResult ρ :=
  match acquire with
  | .error e => ([.acquireFail], .err e)
  | .ok a =>
    let fin : List ResEv :=
      match cleanup with
      | some _ => [.releaseRun]
      | none => []
    match use a with
    | .success r => ([.acquireOk, .useRun] ++ fin, .ok r)
    | .failure e => ([.acquireOk, .useRun] ++ fin, .err e)
    | .cancelled => ([.acquireOk, .useRun] ++ fin, .cancelled)

/-- Number of `cleanup` invocations in a `withResource` trace. -/
def countReleases : List ResEv → Nat
  | [] => 0
  | .releaseRun :: r => countReleases r + 1
  | .acquireOk :: r => countReleases r
  | .acquireFail :: r => countReleases r
  | .useRun :: r => countReleases r

/-- Number of `use` invocations in a `withResource` trace. -/
def countUses : List ResEv → Nat
  | [] => 0
  | .useRun :: r => countUses r + 1
  | .acquireOk :: r => countUses r
  | .acquireFail :: r => countUses r
  | .releaseRun :: r => countUses r

/-!
## Request Tracker: `waitForCompletion` (part_004 lines 76-115,
`src/lib/server.ts` lines 89-125)

```
*waitForCompletion() {
  if (activeRequests.size > 0) {
    yield* call(() => Promise.all(Array.from(activeRequests)));
  }
}
```

`Array.from(activeRequests)` snapshots the set of requests active at the
moment of the call; `Promise.all` over that snapshot resolves once every
member of the snapshot has settled.  There is no re-check of the set
afterwards.  A tracked request is modelled by its arrival time and its
settle time; the barrier is a function from the tracked population and
the call instant to the instant at which the barrier returns.
-/

/-- A tracked request: when it was added to the active set and when its
promise settles. -/
structure TrackedReq where
  arrival : Nat
  settle : Nat
deriving DecidableEq, Repr

/-- The requests in the active set at instant `t`: already tracked, not
yet settled. -/
def activeAt (reqs : List TrackedReq) (t : Nat) : List TrackedReq :=
  reqs.filter fun r => r.arrival ≤ t && t < r.settle

/-- Embedding of `waitForCompletion` called at instant `t0`: the instant
at which it returns.  With an empty active set it returns immediately;
otherwise it returns when the last member of the snapshot settles. -/
def waitForCompletion (reqs : List TrackedReq) (t0 : Nat) : Nat :=
  let snapshot := activeAt reqs t0
  if snapshot.isEmpty then t0
  else (snapshot.map TrackedReq.settle).foldl max t0

/-!
## Shutdown Orchestrator (part_004 lines 322-356,
`src/lib/server.ts` lines 376-406)

part_004 drains with
`Promise.race([timeoutPromise, main(() => requestTracker.waitForCompletion())])`:
the race settles with whichever of the drain barrier and the deadline
timer fires first, and either way the orchestrator then proceeds to the
stopped state; only one signal is ever read from the subscription.

`src/lib/server.ts` lines 390-396 instead call

```
yield* useTaskScheduler(
  config.shutdownTimeout,
  function* () { console.warn("Some requests did not complete before timeout"); },
  { delay: config.shutdownTimeout }
);
```

`useTaskScheduler` (part_001 lines 214-236) loops
`while (true) { operation(); iterations++;
 if (options?.maxIterations && iterations >= options.maxIterations) break;
 sleep(interval); }`, so without a `maxIterations` option the loop never
breaks.
-/

/-- Outcome of the Draining state in the orchestrator of part_004. -/
inductive ShutdownOutcome where
  | cleanDrain (t : Nat)
  | forcedStop (t : Nat)
deriving DecidableEq, Repr

/-- Embedding of the `Promise.race` between the drain barrier (settling at
`barrierTime`) and the deadline timer (firing at `deadline`) in part_004
lines 342-347.  The winner determines whether the stop is clean or
forced; on a tie the already-resolved barrier promise wins the race. -/
def shutdownRace (barrierTime deadline : Nat) : ShutdownOutcome :=
  if barrierTime ≤ deadline then .cleanDrain barrierTime
  else .forcedStop deadline

/-- The break condition of `useTaskScheduler`
(`if (options?.maxIterations && iterations >= options.maxIterations) break`,
part_001 line 231): `maxIterations` must be present and truthy (nonzero)
and the iteration count must have reached it. -/
def schedBreaks (maxIterations : Option Nat) (iterations : Nat) : Bool :=
  match maxIterations with
  | some m => if m = 0 then false else decide (m ≤ iterations)
  | none => false

/-- Embedding of the `useTaskScheduler` loop, run for at most `fuel`
iterations starting from iteration count `iterations`.  Returns the final
iteration count if the loop broke within the fuel bound, and `none` if it
was still running when the fuel ran out. -/
def useTaskScheduler (maxIterations : Option Nat) :
    Nat → Nat → Option Nat
  | 0, _ => none
  | fuel + 1, iterations =>
    let it := iterations + 1
    if schedBreaks maxIterations it then some it
    else useTaskScheduler maxIterations fuel it

/-- The drain step of `src/lib/server.ts` lines 390-396: the scheduler is
invoked with `{ delay: config.shutdownTimeout }` only — no
`maxIterations`. -/
def libServerDrain (fuel : Nat) : Option Nat :=
  useTaskScheduler none fuel 0

/-!
## `parallel` (part_002 lines 157-166)

```
const tasks = operations.map(op => spawn(op));
const results = [];
for (const task of tasks) { results.push(yield* task); }
return results;
```

All operations are spawned as sibling children (running concurrently from
instant 0) and then awaited one by one in input order.  An operation is
modelled by the instant its spawned task completes and its success value;
awaiting task `i` at instant `t` returns at `max t dur_i` with `value_i`.
-/

/-- A spawned sibling operation: its completion instant (counted from the
spawn) and its success value. -/
structure SpawnedOp (α : Type) where
  dur : Nat
  value : α
deriving DecidableEq, Repr

/-- Awaiting the spawned tasks in input order starting at instant `t`:
returns the instant the loop finishes and the collected results. -/
def awaitAll {α : Type} (t : Nat) :
    List (SpawnedOp α) → Nat × List α
  | [] => (t, [])
  | op :: rest =>
    let t2 := max t op.dur
    let tail := awaitAll t2 rest
    (tail.1, op.value :: tail.2)

/-- Embedding of `parallel(operations)`: spawn everything at instant 0,
then collect results in input order. -/
def parallel {α : Type} (operations : List (SpawnedOp α)) : Nat × List α :=
  awaitAll 0 operations

/-!
## `withConcurrency` (part_001 lines 125-145, part_003 lines 139-156)

```
const results = [];
const activeTasks = new Set();
for (const task of tasks) {
  if (activeTasks.size >= maxConcurrency) {
    const result = yield* race(Array.from(activeTasks));
    ...
  }
  activeTasks.add(task);
  results.push(yield* task);
  activeTasks.delete(task);
}
return results;
```

The input `tasks : Task<T>[]` are handles of tasks that are *already
running* (spawned by the caller); `yield* task` merely awaits a handle
and has no effect on when the underlying task runs.  Each loop iteration
adds the task to the set, fully awaits it and removes it again, so the
set is empty at every size check.  A task handle is modelled by the start
and finish instants of its externally-driven run plus its value; the
embedding threads the `activeTasks` list through the loop and records a
`raceWait` event whenever the size check fires.
-/

/-- A handle to an externally started task: the interval during which the
task runs and its success value. -/
structure RunningTask (α : Type) where
  start : Nat
  fin : Nat
  value : α
deriving DecidableEq, Repr

/-- Observable events of a `withConcurrency` run. -/
inductive ConcEv where
  | raceWait
  | awaited
deriving DecidableEq, Repr

/-- The loop body of `withConcurrency`, with the `activeTasks` set
threaded through as a list. -/
def withConcurrencyLoop {α : Type} [DecidableEq α] (maxConcurrency : Nat)
    (activeTasks : List (RunningTask α)) :
    List (RunningTask α) → List ConcEv × List α
  | [] => ([], [])
  | task :: rest =>
    let raceEvs : List ConcEv :=
      if maxConcurrency ≤ activeTasks.length then [.raceWait] else []
    let activeAfter := (task :: activeTasks).erase task
    let tail := withConcurrencyLoop maxConcurrency activeAfter rest
    (raceEvs ++ .awaited :: tail.1, task.value :: tail.2)

/-- Embedding of `withConcurrency(tasks, maxConcurrency)`. -/
def withConcurrency {α : Type} [DecidableEq α]
    (tasks : List (RunningTask α)) (maxConcurrency : Nat) :
    List ConcEv × List α :=
  withConcurrencyLoop maxConcurrency [] tasks

/-- How many of the given (externally running) tasks are executing at
instant `t`.  `withConcurrency` has no influence on this: it only awaits
the handles it is given. -/
def runningAt {α : Type} (tasks : List (RunningTask α)) (t : Nat) : Nat :=
  (tasks.filter fun r => r.start ≤ t && t < r.fin).length

/-!
## `createConfig` (part_004 lines 35-54, `src/lib/server.ts` lines 38-62)

```
shutdownTimeout: parseInt(Deno.env.get("SHUTDOWN_TIMEOUT") || "5000"),
...
if (isNaN(config.shutdownTimeout) || config.shutdownTimeout <= 0) {
  throw new Error("Invalid shutdown timeout configuration");
}
```

The environment value is defaulted through `||` (so an unset *or empty*
variable falls back to `"5000"`), fed to JavaScript `parseInt` with no
radix argument, and the result is rejected when it is `NaN` or `≤ 0`.
`jsParseInt` models `parseInt`: skip leading whitespace, optional sign,
optional `0x`/`0X` hexadecimal marker, then the longest prefix of digits
valid in the radix; no digits means `NaN` (`none`).
-/

/-- JavaScript whitespace accepted by `parseInt` (tab, line feed,
vertical tab, form feed, carriage return, space). -/
def isJsSpace (c : Char) : Bool :=
  c.toNat = 32 || c.toNat = 9 || c.toNat = 10 || c.toNat = 11 ||
  c.toNat = 12 || c.toNat = 13

/-- The value of `c` as a digit in the given radix (10 or 16), if any. -/
def digitVal (radix : Nat) (c : Char) : Option Nat :=
  if 48 ≤ c.toNat ∧ c.toNat ≤ 57 then some (c.toNat - 48)
  else if radix = 16 ∧ 97 ≤ c.toNat ∧ c.toNat ≤ 102 then some (c.toNat - 87)
  else if radix = 16 ∧ 65 ≤ c.toNat ∧ c.toNat ≤ 70 then some (c.toNat - 55)
  else none

/-- Accumulated numeric value of a digit string in the given radix. -/
def digitsVal (radix : Nat) (ds : List Char) : Nat :=
  ds.foldl (fun acc c => acc * radix + (digitVal radix c).getD 0) 0

/-- The optional leading sign consumed by `parseInt`. -/
def splitSign (cs : List Char) : Int × List Char :=
  match cs with
  | [] => (1, [])
  | c :: r =>
    if c = '+' then (1, r)
    else if c = '-' then (-1, r)
    else (1, c :: r)

/-- The optional `0x`/`0X` hexadecimal marker consumed by `parseInt`; the
first component is the resulting radix. -/
def splitHexMark (cs : List Char) : Nat × List Char :=
  match cs with
  | c0 :: c1 :: r =>
    if c0 = '0' ∧ (c1 = 'x' ∨ c1 = 'X') then (16, r) else (10, c0 :: c1 :: r)
  | _ => (10, cs)

/-- Model of JavaScript `parseInt(s)` (radix unspecified): `none` is
`NaN`. -/
def jsParseInt (s : String) : Option Int :=
  let cs := s.data.dropWhile isJsSpace
  let signSplit := splitSign cs
  let radixSplit := splitHexMark signSplit.2
  let ds := radixSplit.2.takeWhile fun c => (digitVal radixSplit.1 c).isSome
  if ds.isEmpty then none
  else some (signSplit.1 * (digitsVal radixSplit.1 ds : Int))

/-- The `Deno.env.get("SHUTDOWN_TIMEOUT") || "5000"` defaulting: JS `||`
also replaces the empty string, which is falsy. -/
def defaultedTimeoutEnv (envVal : Option String) : String :=
  match envVal with
  | none => "5000"
  | some s => if s = "" then "5000" else s

/-- Embedding of the `shutdownTimeout` part of `createConfig`: parse the
(defaulted) environment value and reject `NaN` and non-positive results.
The `port` field is validated by the same pattern and is not modelled. -/
def createConfig (envVal : Option String) : Except JsError Int :=
  match jsParseInt (defaultedTimeoutEnv envVal) with
  | none => .error ⟨"Invalid shutdown timeout configuration"⟩
  | some v =>
    if v ≤ 0 then .error ⟨"Invalid shutdown timeout configuration"⟩
    else .ok v

/-- The reading the specification takes of "the value parses to a positive
integer": the string is a nonempty run of decimal digits denoting a
positive number. -/
def parsesToPosInt (s : String) : Option Nat :=
  if s.data ≠ [] ∧ (s.data.all fun c => (digitVal 10 c).isSome) ∧
      0 < digitsVal 10 s.data
  then some (digitsVal 10 s.data) else none

/-!
## `serveStatic` (part_007 lines 115-137, `src/server/server.ts` lines
89-113)

```
const normalizedPath = path.normalize(filePath).replace(regexp, empty);
const fullPath = path.join(CONFIG.publicDir, normalizedPath);
if (!fullPath.startsWith(path.resolve(CONFIG.publicDir))) {
  return new Response("Forbidden", { status: 403 });
}
const file = await Deno.readFile(fullPath);
...
catch NotFound -> 404
```

POSIX path manipulation is modelled on `/`-separated segment lists:
`normalize` resolves `.` and `..` segments, `join` concatenates and
normalizes, `resolve` prepends the (absolute) working directory to a
relative path and normalizes.  `startsWith` is the plain string prefix
test the source uses.
-/

/-- Split a character list at `/` separators (empty segments are kept and
filtered by the callers). -/
def segsOf : List Char → List (List Char)
  | [] => [[]]
  | '/' :: rest => [] :: segsOf rest
  | c :: rest =>
    match segsOf rest with
    | s :: ss => (c :: s) :: ss
    | [] => [[c]]

/-- The non-empty `/`-separated segments of a path. -/
def pathSegs (s : String) : List (List Char) :=
  (segsOf s.data).filter fun seg => seg ≠ []

/-- Whether a path is absolute. -/
def isAbs (s : String) : Bool :=
  match s.data with
  | '/' :: _ => true
  | _ => false

/-- One step of POSIX path normalization: push a segment onto the
(reversed) stack of kept segments, resolving `.` and `..`. -/
def pushSeg (abs : Bool) (stack : List (List Char)) (seg : List Char) :
    List (List Char) :=
  if seg = ['.'] then stack
  else if seg = ['.', '.'] then
    match stack with
    | [] => if abs then [] else [seg]
    | top :: rest => if top = ['.', '.'] then seg :: stack else rest
  else seg :: stack

/-- Normalized segment list of a path. -/
def normSegs (abs : Bool) (segs : List (List Char)) : List (List Char) :=
  (segs.foldl (pushSeg abs) []).reverse

/-- Join segments with `/`. -/
def joinChars : List (List Char) → List Char
  | [] => []
  | [s] => s
  | s :: rest => s ++ '/' :: joinChars rest

/-- Render an absolute flag and segment list back into a path string. -/
def renderPath (abs : Bool) (segs : List (List Char)) : String :=
  if abs then ⟨'/' :: joinChars segs⟩
  else if segs.isEmpty then "." else ⟨joinChars segs⟩

/-- Model of POSIX `path.normalize` (trailing-slash preservation is not
modelled; no input here carries one). -/
def pathNormalize (s : String) : String :=
  renderPath (isAbs s) (normSegs (isAbs s) (pathSegs s))

/-- Model of POSIX `path.join` on two parts. -/
def pathJoin (a b : String) : String :=
  pathNormalize (a ++ "/" ++ b)

/-- Model of POSIX `path.resolve` of a single path against the (absolute)
working directory `cwd`. -/
def pathResolve (cwd p : String) : String :=
  if isAbs p then pathNormalize p else pathNormalize (cwd ++ "/" ++ p)

/-- JavaScript `String.prototype.startsWith`. -/
def jsStartsWith (s pre : String) : Bool :=
  pre.data.isPrefixOf s.data

/-- The leading-dot-dot replace step: strip every leading `../`
(the Windows `..\` alternative is not modelled). -/
def stripDotDotChars : List Char → List Char
  | '.' :: '.' :: '/' :: rest => stripDotDotChars rest
  | cs => cs

/-- String form of `stripDotDotChars`. -/
def stripLeadingDotDot (s : String) : String :=
  ⟨stripDotDotChars s.data⟩

/-- Responses `serveStatic` can produce. -/
inductive StaticResp where
  | forbidden
  | notFound
  | fileOk (fullPath : String)
deriving DecidableEq, Repr

/-- Embedding of `serveStatic(filePath)` under working directory `cwd`,
configured public directory `publicDir` and file-system predicate
`fileExists`.  The second component records whether `Deno.readFile` was
invoked. -/
def serveStatic (cwd publicDir filePath : String)
    (fileExists : String → Bool) : StaticResp × Bool :=
  let normalizedPath := stripLeadingDotDot (pathNormalize filePath)
  let fullPath := pathJoin publicDir normalizedPath
  if ¬ jsStartsWith fullPath (pathResolve cwd publicDir) then
    (.forbidden, false)
  else if fileExists fullPath then (.fileOk fullPath, true)
  else (.notFound, true)

/-- The notion the claim uses of the requested location lying inside the public
directory: the segments of the resolved public directory lead the
segments of the resolved target. -/
def isWithin (cwd dir target : String) : Bool :=
  (pathSegs (pathResolve cwd dir)).isPrefixOf
    (pathSegs (pathResolve cwd target))

/-!
# Theorems

Helper lemmas, then one theorem per claim (with a counterexample and a
witness where the status of the claim calls for them).
-/

/-- Unfolding of one `retryLoop` iteration. -/
lemma retryLoop_succ {α : Type} (op : Nat → Except JsError α) (d : Nat)
    (le : Option JsError) (i m : Nat) :
    retryLoop op d le i (m + 1) =
      match op i with
      | .ok v => ([.attempt i], .ok v)
      | .error e =>
        let tail := retryLoop op d (some e) (i + 1) m
        if d ≠ 0 then (.attempt i :: .delayed d :: tail.1, tail.2)
        else (.attempt i :: tail.1, tail.2) := rfl

/-- `retry` never runs more loop iterations than `maxRetries`. -/
lemma retryLoop_attempts_le {α : Type} (op : Nat → Except JsError α)
    (d : Nat) : ∀ (n : Nat) (le : Option JsError) (i : Nat),
    countAttempts (retryLoop op d le i n).1 ≤ n := by
  intro n
  induction n with
  | zero => intro le i; simp [retryLoop, countAttempts]
  | succ m ih =>
    intro le i
    rw [retryLoop_succ]
    cases hop : op i with
    | ok v => simp [countAttempts]
    | error e =>
      by_cases hd : d = 0
      · subst hd
        simp only [ne_eq, not_true_eq_false, if_false, countAttempts]
        have := ih (some e) (i + 1)
        omega
      · simp only [ne_eq, hd, not_false_eq_true, if_true, countAttempts,
          countDelays]
        have := ih (some e) (i + 1)
        simp [countAttempts] at this ⊢
        omega

/-- When every attempt fails and the delay is nonzero, `retryLoop`
performs one attempt and one sleep per iteration and ends with the error
of the final attempt. -/
lemma retryLoop_allFail {α : Type} (op : Nat → Except JsError α)
    (errs : Nat → JsError) (hop : ∀ j, op j = .error (errs j)) (d : Nat)
    (hd : d ≠ 0) : ∀ (n i : Nat) (le : Option JsError),
    countAttempts (retryLoop op d le i (n + 1)).1 = n + 1 ∧
    countDelays (retryLoop op d le i (n + 1)).1 = n + 1 ∧
    (retryLoop op d le i (n + 1)).2 = .error (errs (i + n)) := by
  intro n
  induction n with
  | zero =>
    intro i le
    rw [retryLoop_succ, hop i]
    simp [hd, retryLoop, countAttempts, countDelays]
  | succ m ih =>
    intro i le
    rw [retryLoop_succ, hop i]
    simp only [hd, ne_eq, not_false_eq_true, if_true, countAttempts,
      countDelays]
    obtain ⟨h1, h2, h3⟩ := ih (i + 1) (some (errs i))
    refine ⟨by omega, by omega, ?_⟩
    rw [h3]
    have : i + 1 + m = i + (m + 1) := by omega
    rw [this]

/-- C1: the claim says `withTimeout(op, ms)` races `op` against a timer
and returns the result of `op` when `op` completes first.  The code awaits the
timer effect before the race, so for every operation — even one that
completes immediately — the call fails with the timeout error after `ms`;
in particular an operation settling at instant 0 with value 1 under a
5 ms timeout still yields the timeout error. -/
theorem C1_withTimeout_ignores_operation :
    (∀ (op : AsyncOp Nat) (ms : Nat),
      withTimeout op ms = ⟨ms, .error (timeoutError ms)⟩) ∧
    withTimeout ⟨0, .ok 1⟩ 5 = ⟨5, .error (timeoutError 5)⟩ := by
  refine ⟨fun op ms => rfl, rfl⟩

/-- C2 counterexample: at `maxRetries = 2`, `delay = 1` and an operation
that always fails, the source performs 2 sleeps — one after each failed
attempt, including the last — not the `n - 1 = 1` the claim states, and
the propagated error is the bare final error rather than a
`RetryExhausted` wrapper. -/
theorem C2_retry_counterexample :
    countDelays (retry (fun _ => (.error ⟨"boom"⟩ : Except JsError Nat)) 2 1).1 = 2 ∧
    ¬ countDelays (retry (fun _ => (.error ⟨"boom"⟩ : Except JsError Nat)) 2 1).1 = 2 - 1 ∧
    (retry (fun _ => (.error ⟨"boom"⟩ : Except JsError Nat)) 2 1).2 = .error ⟨"boom"⟩ := by
  decide

/-- C2 amended: `retry(op, n, d)` with `n ≥ 1` and `d ≠ 0` invokes `op`
at most `n` times; when every invocation fails, it invokes `op` exactly
`n` times, sleeps exactly `n` times (once after every failed attempt,
including the last), and propagates the error of the final invocation
itself. -/
theorem C2_retry_amended {α : Type} (op : Nat → Except JsError α)
    (errs : Nat → JsError) (n d : Nat) (hn : 1 ≤ n) (hd : d ≠ 0)
    (hop : ∀ j, op j = .error (errs j)) :
    (∀ op2 : Nat → Except JsError α,
      countAttempts (retry op2 n d).1 ≤ n) ∧
    countAttempts (retry op n d).1 = n ∧
    countDelays (retry op n d).1 = n ∧
    (retry op n d).2 = .error (errs (n - 1)) := by
  obtain ⟨m, rfl⟩ : ∃ m, n = m + 1 := ⟨n - 1, by omega⟩
  obtain ⟨h1, h2, h3⟩ := retryLoop_allFail op errs hop d hd m 0 none
  refine ⟨fun op2 => retryLoop_attempts_le op2 d (m + 1) none 0, ?_, ?_, ?_⟩
  · exact h1
  · exact h2
  · simpa using h3

/-- C2 witness: the amended statement evaluated at two attempts, delay 1
and an operation failing with error "e". -/
theorem C2_retry_witness :
    (∀ op2 : Nat → Except JsError Nat,
      countAttempts (retry op2 2 1).1 ≤ 2) ∧
    countAttempts (retry (fun _ => (.error ⟨"e"⟩ : Except JsError Nat)) 2 1).1 = 2 ∧
    countDelays (retry (fun _ => (.error ⟨"e"⟩ : Except JsError Nat)) 2 1).1 = 2 ∧
    (retry (fun _ => (.error ⟨"e"⟩ : Except JsError Nat)) 2 1).2 = .error ⟨"e"⟩ :=
  C2_retry_amended (fun _ => (.error ⟨"e"⟩ : Except JsError Nat))
    (fun _ => ⟨"e"⟩) 2 1 (by decide) (by decide) (fun _ => rfl)

/-- C3: when acquisition succeeds and the `use` body throws or is
cancelled, the cleanup passed to `withResource` runs exactly once, as the
final lifecycle event before the call settles. -/
theorem C3_withResource_release_once {α ρ : Type}
    (acquire : Except JsError α) (a : α) (use : α → UseOutcome ρ)
    (rel : α → Unit) (hacq : acquire = .ok a)
    (huse : (∃ e, use a = .failure e) ∨ use a = .cancelled) :
    (withResource acquire use (some rel)).1
      = [.acquireOk, .useRun, .releaseRun] ∧
    countReleases (withResource acquire use (some rel)).1 = 1 := by
  subst hacq
  rcases huse with ⟨e, he⟩ | he <;>
    simp [withResource, he, countReleases]

/-- C3 witness: the theorem at a concrete acquisition, a failing `use`
body and a concrete cleanup. -/
theorem C3_withResource_release_once_witness :
    (withResource (.ok 0)
      (fun _ => (UseOutcome.failure ⟨"boom"⟩ : UseOutcome Nat))
      (some fun _ => ())).1 = [.acquireOk, .useRun, .releaseRun] ∧
    countReleases (withResource (.ok 0)
      (fun _ => (UseOutcome.failure ⟨"boom"⟩ : UseOutcome Nat))
      (some fun _ => ())).1 = 1 :=
  C3_withResource_release_once (.ok 0) 0
    (fun _ => (UseOutcome.failure ⟨"boom"⟩ : UseOutcome Nat))
    (fun _ => ()) rfl (Or.inl ⟨⟨"boom"⟩, rfl⟩)

/-- C8: when acquisition fails, `withResource` runs neither the `use`
body nor the cleanup and propagates the acquisition error to its
caller. -/
theorem C8_withResource_acquire_failure {α ρ : Type} (e : JsError)
    (use : α → UseOutcome ρ) (cleanup : Option (α → Unit)) :
    (withResource (.error e) use cleanup).1 = [.acquireFail] ∧
    countUses (withResource (.error e) use cleanup).1 = 0 ∧
    countReleases (withResource (.error e) use cleanup).1 = 0 ∧
    (withResource (.error e) use cleanup).2 = .err e := by
  simp [withResource, countUses, countReleases]

/-- The seed of a maximum fold is a lower bound of the fold. -/
lemma foldl_max_init_le (l : List Nat) :
    ∀ init : Nat, init ≤ l.foldl max init := by
  induction l with
  | nil => intro init; simp
  | cons x xs ih =>
    intro init
    calc init ≤ max init x := le_max_left _ _
      _ ≤ xs.foldl max (max init x) := ih _

/-- Every member of a list is a lower bound of a maximum fold over it. -/
lemma mem_le_foldl_max (l : List Nat) (a : Nat) (ha : a ∈ l) :
    ∀ init : Nat, a ≤ l.foldl max init := by
  induction l with
  | nil => cases ha
  | cons x xs ih =>
    intro init
    simp only [List.foldl_cons]
    rcases List.mem_cons.mp ha with rfl | h
    · exact le_trans (le_max_right init a) (foldl_max_init_le xs _)
    · exact ih h (max init x)

/-- C4 counterexample: two requests, one active when the barrier is
called at instant 1 and settling at 5, the other tracked at instant 2
(while draining) and settling at 100.  The barrier returns at instant 5,
when the second request — tracked before the active set became empty —
is still unsettled; the claim says it would be included in the wait. -/
theorem C4_waitForCompletion_counterexample :
    waitForCompletion [⟨0, 5⟩, ⟨2, 100⟩] 1 = 5 ∧
    (⟨2, 100⟩ : TrackedReq) ∈ [(⟨0, 5⟩ : TrackedReq), ⟨2, 100⟩] ∧
    (⟨2, 100⟩ : TrackedReq).arrival ≤ waitForCompletion [⟨0, 5⟩, ⟨2, 100⟩] 1 ∧
    ¬ (⟨2, 100⟩ : TrackedReq).settle ≤ waitForCompletion [⟨0, 5⟩, ⟨2, 100⟩] 1 := by
  decide

/-- C4 amended: `waitForCompletion` awaits exactly the snapshot of the
active set taken at the instant of the call: it never returns before the
call instant, and every request active at the call instant has settled by
the time it returns (requests tracked later are not part of the
snapshot and are not awaited, as the counterexample shows). -/
theorem C4_waitForCompletion_amended (reqs : List TrackedReq) (t0 : Nat)
    (r : TrackedReq) (hr : r ∈ activeAt reqs t0) :
    t0 ≤ waitForCompletion reqs t0 ∧
    r.settle ≤ waitForCompletion reqs t0 := by
  have hne : (activeAt reqs t0).isEmpty = false := by
    have := List.ne_nil_of_mem hr
    cases h : activeAt reqs t0 with
    | nil => exact absurd h this
    | cons x xs => rfl
  have hmem : r.settle ∈ (activeAt reqs t0).map TrackedReq.settle :=
    List.mem_map_of_mem TrackedReq.settle hr
  constructor
  · simp only [waitForCompletion, hne, Bool.false_eq_true, if_false]
    exact foldl_max_init_le _ t0
  · simp only [waitForCompletion, hne, Bool.false_eq_true, if_false]
    exact mem_le_foldl_max _ _ hmem t0

/-- C4 witness: the amended statement at a single request active at the
call instant. -/
theorem C4_waitForCompletion_amended_witness :
    (0 : Nat) ≤ waitForCompletion [⟨0, 5⟩] 0 ∧
    (⟨0, 5⟩ : TrackedReq).settle ≤ waitForCompletion [⟨0, 5⟩] 0 :=
  C4_waitForCompletion_amended [⟨0, 5⟩] 0 ⟨0, 5⟩ (by decide)

/-- C5: in `src/lib/server.ts` the drain step after a termination signal
is `useTaskScheduler(shutdownTimeout, warn, { delay: shutdownTimeout })`
— no `maxIterations` — whose break condition never fires, so the
orchestrator keeps logging forever and never reaches the stopped state;
the `Promise.race` of part_004 of the drain barrier against the deadline
timer, by contrast, always settles into a clean drain or a forced stop,
which is what the claim describes. -/
theorem C5_libServer_drain_never_stops :
    (∀ fuel iterations : Nat,
      useTaskScheduler none fuel iterations = none) ∧
    (∀ fuel : Nat, libServerDrain fuel = none) ∧
    (∀ barrierTime deadline : Nat,
      shutdownRace barrierTime deadline = .cleanDrain barrierTime ∨
      shutdownRace barrierTime deadline = .forcedStop deadline) := by
  have key : ∀ fuel iterations : Nat,
      useTaskScheduler none fuel iterations = none := by
    intro fuel
    induction fuel with
    | zero => intro it; rfl
    | succ m ih =>
      intro it
      simp only [useTaskScheduler, schedBreaks, Bool.false_eq_true,
        if_false]
      exact ih (it + 1)
  refine ⟨key, fun fuel => key fuel 0, fun b dl => ?_⟩
  unfold shutdownRace
  split
  · exact Or.inl rfl
  · exact Or.inr rfl

/-- C6: `parallel` spawns every operation as a sibling task and then
awaits the handles in input order, so the result list is the success
values in input order for every assignment of completion instants — in
particular when a later operation completes before an earlier one. -/
theorem C6_parallel_input_order {α : Type}
    (operations : List (SpawnedOp α)) :
    (parallel operations).2 = operations.map SpawnedOp.value := by
  suffices h : ∀ t : Nat,
      (awaitAll t operations).2 = operations.map SpawnedOp.value from h 0
  induction operations with
  | nil => intro t; rfl
  | cons op rest ih => intro t; simp [awaitAll, ih]

/-- C7 counterexample: two already-running tasks occupying instants 0-10
are both executing at instant 5 although `withConcurrency` was called
with limit 1 — the combinator merely awaits the handles (its race branch
never fires) and does not bound how many of them run at once. -/
theorem C7_withConcurrency_counterexample :
    runningAt [(⟨0, 10, 1⟩ : RunningTask Nat), ⟨0, 10, 2⟩] 5 = 2 ∧
    ¬ runningAt [(⟨0, 10, 1⟩ : RunningTask Nat), ⟨0, 10, 2⟩] 5 ≤ 1 ∧
    (withConcurrency [(⟨0, 10, 1⟩ : RunningTask Nat), ⟨0, 10, 2⟩] 1).1.count
      ConcEv.raceWait = 0 ∧
    (withConcurrency [(⟨0, 10, 1⟩ : RunningTask Nat), ⟨0, 10, 2⟩] 1).2
      = [1, 2] := by
  decide

/-- Each iteration of the `withConcurrency` loop adds the task to the
active set and removes it again before the next iteration, so starting
from an empty set the size check never reaches a limit of at least 1 and
the results are collected sequentially in input order. -/
lemma withConcurrencyLoop_empty {α : Type} [DecidableEq α] (limit : Nat)
    (hl : 1 ≤ limit) : ∀ tasks : List (RunningTask α),
    (withConcurrencyLoop limit [] tasks).1.count ConcEv.raceWait = 0 ∧
    (withConcurrencyLoop limit [] tasks).2
      = tasks.map RunningTask.value := by
  intro tasks
  induction tasks with
  | nil => simp [withConcurrencyLoop]
  | cons task rest ih =>
    have hlz : ¬ limit = 0 := by omega
    obtain ⟨ih1, ih2⟩ := ih
    simp [withConcurrencyLoop, hlz, List.erase_cons_head, ih1, ih2,
      List.count_cons]

/-- C7 amended: `withConcurrency(tasks, limit)` with `limit ≥ 1` awaits
the already-running input tasks one at a time in input order and returns
their values in input order; its size check never fires (the active set
is emptied within each iteration), so it performs no admission control
and does not bound the concurrency of the tasks. -/
theorem C7_withConcurrency_amended {α : Type} [DecidableEq α]
    (tasks : List (RunningTask α)) (limit : Nat) (hl : 1 ≤ limit) :
    (withConcurrency tasks limit).1.count ConcEv.raceWait = 0 ∧
    (withConcurrency tasks limit).2 = tasks.map RunningTask.value :=
  withConcurrencyLoop_empty limit hl tasks

/-- C7 witness: the amended statement at two concrete running tasks and
limit 1. -/
theorem C7_withConcurrency_amended_witness :
    (withConcurrency [(⟨0, 10, 1⟩ : RunningTask Nat), ⟨3, 7, 2⟩] 1).1.count
      ConcEv.raceWait = 0 ∧
    (withConcurrency [(⟨0, 10, 1⟩ : RunningTask Nat), ⟨3, 7, 2⟩] 1).2
      = [(⟨0, 10, 1⟩ : RunningTask Nat), ⟨3, 7, 2⟩].map RunningTask.value :=
  C7_withConcurrency_amended [(⟨0, 10, 1⟩ : RunningTask Nat), ⟨3, 7, 2⟩] 1
    (by decide)

/-- A character is a decimal digit for `digitVal` exactly when its code
lies between 48 and 57. -/
lemma digitVal10_isSome {c : Char} :
    (digitVal 10 c).isSome = true ↔ 48 ≤ c.toNat ∧ c.toNat ≤ 57 := by
  rw [digitVal]
  by_cases h : 48 ≤ c.toNat ∧ c.toNat ≤ 57
  · simp [h]
  · rw [if_neg h, if_neg (by omega), if_neg (by omega)]
    simp [h]

/-- Decimal digits are not `parseInt` whitespace. -/
lemma digit_not_jsSpace {c : Char} (h : 48 ≤ c.toNat) :
    isJsSpace c = false := by
  simp only [isJsSpace, Bool.or_eq_false_iff, decide_eq_false_iff_not]
  omega

/-- Characters with different codes differ. -/
lemma char_ne_of_toNat_ne {c d : Char} (h : c.toNat ≠ d.toNat) : c ≠ d :=
  fun e => h (by rw [e])

/-- `splitSign` consumes nothing when the input starts with a digit. -/
lemma splitSign_digit {c : Char} {cs : List Char} (h48 : 48 ≤ c.toNat)
    (h57 : c.toNat ≤ 57) : splitSign (c :: cs) = (1, c :: cs) := by
  have hp : c ≠ '+' := char_ne_of_toNat_ne (by
    have h43 : ('+').toNat = 43 := rfl
    omega)
  have hm : c ≠ '-' := char_ne_of_toNat_ne (by
    have h45 : ('-').toNat = 45 := rfl
    omega)
  simp [splitSign, hp, hm]

/-- `splitHexMark` consumes nothing on an all-decimal-digit input. -/
lemma splitHexMark_digits {l : List Char}
    (hall : ∀ c ∈ l, 48 ≤ c.toNat ∧ c.toNat ≤ 57) :
    splitHexMark l = (10, l) := by
  match l with
  | [] => rfl
  | [c] => rfl
  | c0 :: c1 :: r =>
    have h1 := hall c1 (by simp)
    have hx : c1 ≠ 'x' := char_ne_of_toNat_ne (by
      have h120 : ('x').toNat = 120 := rfl
      omega)
    have hX : c1 ≠ 'X' := char_ne_of_toNat_ne (by
      have h88 : ('X').toNat = 88 := rfl
      omega)
    simp [splitHexMark, hx, hX]

/-- `takeWhile` keeps a list all of whose elements satisfy the
predicate. -/
lemma takeWhile_all {p : Char → Bool} :
    ∀ l : List Char, (∀ c ∈ l, p c = true) → l.takeWhile p = l := by
  intro l
  induction l with
  | nil => intro _; rfl
  | cons x xs ih =>
    intro h
    have hx := h x (by simp)
    simp [List.takeWhile_cons, hx, ih fun c hc => h c (by simp [hc])]

/-- C9 counterexample: `"3.9"` and the empty string do not denote
positive integers, yet configuration construction succeeds on both —
`parseInt` truncates `"3.9"` to 3, and the empty value falls back to the
default `"5000"` — where the claim requires failure. -/
theorem C9_createConfig_counterexample :
    parsesToPosInt "3.9" = none ∧ createConfig (some "3.9") = .ok 3 ∧
    parsesToPosInt "" = none ∧ createConfig (some "") = .ok 5000 := by
  decide

/-- C9 amended: for a non-empty environment value, construction succeeds
with value `n` whenever the value is a digit string denoting the positive
integer `n`, and fails exactly when JavaScript `parseInt` of the value is
`NaN` or non-positive — so values with a positive numeric prefix such as
`"3.9"` are accepted (with the value of the numeric part) rather than rejected, and
empty or unset values take the default 5000. -/
theorem C9_createConfig_amended (s : String) (hs : s ≠ "") :
    (∀ n : Nat, parsesToPosInt s = some n →
      createConfig (some s) = .ok (n : Int)) ∧
    (jsParseInt s = none →
      createConfig (some s)
        = .error ⟨"Invalid shutdown timeout configuration"⟩) ∧
    (∀ v : Int, jsParseInt s = some v → v ≤ 0 →
      createConfig (some s)
        = .error ⟨"Invalid shutdown timeout configuration"⟩) := by
  have hdef : defaultedTimeoutEnv (some s) = s := by
    simp [defaultedTimeoutEnv, hs]
  refine ⟨?_, ?_, ?_⟩
  · intro n hn
    rw [parsesToPosInt] at hn
    split at hn
    case isFalse => exact absurd hn (by simp)
    case isTrue hcond =>
      obtain ⟨hne, hall, hpos⟩ := hcond
      obtain rfl : digitsVal 10 s.data = n := by
        injection hn
      have hall2 : ∀ c ∈ s.data, 48 ≤ c.toNat ∧ c.toNat ≤ 57 :=
        fun c hc => digitVal10_isSome.mp (List.all_eq_true.mp hall c hc)
      have hparse : jsParseInt s = some ((digitsVal 10 s.data : Nat) : Int) := by
        cases hdata : s.data with
        | nil => exact absurd hdata hne
        | cons c cs =>
          rw [hdata] at hall2
          have hc := hall2 c (by simp)
          have hdrop : (c :: cs).dropWhile isJsSpace = c :: cs := by
            rw [List.dropWhile_cons, digit_not_jsSpace hc.1]
            simp
          have hsign : splitSign (c :: cs) = (1, c :: cs) :=
            splitSign_digit hc.1 hc.2
          have hhex := splitHexMark_digits hall2
          have htake : (c :: cs).takeWhile
              (fun ch => (digitVal 10 ch).isSome) = c :: cs :=
            takeWhile_all _ fun ch hch => digitVal10_isSome.mpr (hall2 ch hch)
          simp only [jsParseInt, hdata, hdrop, hsign, hhex, htake,
            List.isEmpty_cons, Bool.false_eq_true, if_false, one_mul]
      rw [createConfig, hdef, hparse]
      have hnle : ¬ ((digitsVal 10 s.data : Nat) : Int) ≤ 0 := by
        exact_mod_cast Nat.not_le.mpr hpos
      simp [hnle]
  · intro h
    rw [createConfig, hdef, h]
  · intro v hv hle
    rw [createConfig, hdef, hv]
    simp [hle]

/-- C9 witness: the amended statement at the concrete value `"42"`. -/
theorem C9_createConfig_amended_witness :
    (∀ n : Nat, parsesToPosInt "42" = some n →
      createConfig (some "42") = .ok (n : Int)) ∧
    (jsParseInt "42" = none →
      createConfig (some "42")
        = .error ⟨"Invalid shutdown timeout configuration"⟩) ∧
    (∀ v : Int, jsParseInt "42" = some v → v ≤ 0 →
      createConfig (some "42")
        = .error ⟨"Invalid shutdown timeout configuration"⟩) :=
  C9_createConfig_amended "42" (by decide)

/-- C10: with the default relative public directory `./public` (working
directory `/app`) and the request path `/index.html` — whose normalized
form joined with the public directory is `public/index.html`, squarely
inside the public directory — `serveStatic` returns 403 without reading
the file: the joined path is relative while `path.resolve` of the public
directory is absolute, so the `startsWith` containment check always
fails.  The own test of the repository (`serveStatic returns 200 for existing
file`, server_test.ts) expects such requests to be served. -/
theorem C10_serveStatic_rejects_inside_path :
    serveStatic "/app" "./public" "/index.html" (fun _ => true)
      = (.forbidden, false) ∧
    isWithin "/app" "./public"
      (pathJoin "./public" (stripLeadingDotDot (pathNormalize "/index.html")))
      = true := by
  decide

